import Mathlib

/-!
# Verification of the `error-replay` action recorder

Shallow embedding, in Lean 4, of the core of the `error-replay`
TypeScript library: the fixed-capacity circular history buffer
(`src/circular-buffer.ts`), the sensitive-data sanitizer
(`src/utils/sanitizer.ts`), the console-capture normalizer
(`src/detectors/console-detector.ts`), and the report assembler of the
`ErrorReplay` controller (`src/index.ts`).

JavaScript numbers appearing as integral values (timestamps, counts,
capacities) are embedded as `Int` or `Nat`; `Math.floor` of a quotient
becomes `Int.fdiv`; JavaScript strings become Lean `String`
(`String.slice(0, n)` becomes a take of the first `n` characters).
Host-supplied behaviour (the DOM, the regular-expression engine used for
caller-supplied sanitize patterns) is passed in as explicit parameters;
a host call that may throw is embedded as a function returning `Except`.
-/

/-! ## Circular buffer (`src/circular-buffer.ts`)

The TypeScript class holds a JS array `buffer` of length `maxSize`
(slots possibly `undefined`), a `head` index (next write position), a
`tail` index (oldest element), and a `count`.  The JS array is embedded
as `List (Option α)`; reading out of bounds yields `undefined`, embedded
as the default `none` of `List.getD`. -/

structure CircularBuffer (α : Type) where
  buffer : List (Option α)
  head : Nat
  tail : Nat
  count : Nat
  maxSize : Nat
  deriving Repr, DecidableEq

namespace CircularBuffer

/-- The state built by the constructor body after the capacity check
passed: `this.buffer = new Array(maxSize)` (all slots undefined),
`head = tail = count = 0`. -/
def emptyBuf (α : Type) (maxSize : Nat) : CircularBuffer α :=
  { buffer := List.replicate maxSize none
    head := 0
    tail := 0
    count := 0
    maxSize := maxSize }

/-- The `constructor(maxSize)`: throws `Error('Buffer size must be at least 1')`
when `maxSize < 1`, otherwise initializes the empty state.  The thrown
error is embedded as `Except.error` carrying the message. -/
def mk? (α : Type) (maxSize : Int) : Except String (CircularBuffer α) :=
  if maxSize < 1 then
    .error "Buffer size must be at least 1"
  else
    .ok (emptyBuf α maxSize.toNat)

/-- The method `add(item)`: writes at `head`, advances `head` modulo `maxSize`;
increments `count` when not yet full, otherwise advances `tail`. -/
def add (s : CircularBuffer α) (item : α) : CircularBuffer α :=
  { buffer := s.buffer.set s.head (some item)
    head := (s.head + 1) % s.maxSize
    tail := if s.count < s.maxSize then s.tail else (s.tail + 1) % s.maxSize
    count := if s.count < s.maxSize then s.count + 1 else s.count
    maxSize := s.maxSize }

/-- The loop of `getAll()`: starting at `index`, run `count` iterations,
pushing each defined slot and stepping `index = (index + 1) % maxSize`. -/
def getAllLoop (buf : List (Option α)) (maxSize : Nat) : Nat → Nat → List α
  | _, 0 => []
  | idx, n + 1 =>
    match buf.getD idx none with
    | some item => item :: getAllLoop buf maxSize ((idx + 1) % maxSize) n
    | none => getAllLoop buf maxSize ((idx + 1) % maxSize) n

/-- The method `getAll()`: early return `[]` when `count === 0`, otherwise the loop
from `tail`. -/
def getAll (s : CircularBuffer α) : List α :=
  if s.count = 0 then [] else getAllLoop s.buffer s.maxSize s.tail s.count

/-- The method `getLast(n)`: `this.getAll().slice(-n)`.  In JavaScript `-0 === 0`,
so `n = 0` gives `slice(0)`, a copy of the whole array; for `n ≥ 1`,
`slice(-n)` drops all but the last `n` elements (clamped at the start of
the array when `n` exceeds the length — `Nat` subtraction clamps the
same way). -/
def getLast (s : CircularBuffer α) (n : Nat) : List α :=
  let all := s.getAll
  if n = 0 then all else all.drop (all.length - n)

/-- The method `clear()`: fresh undefined-filled array, all indices reset. -/
def clearBuf (s : CircularBuffer α) : CircularBuffer α :=
  { buffer := List.replicate s.maxSize none
    head := 0
    tail := 0
    count := 0
    maxSize := s.maxSize }

/-- The query `size()`. -/
def size (s : CircularBuffer α) : Nat := s.count

/-- The query `isEmpty()`. -/
def isEmpty (s : CircularBuffer α) : Bool := s.count = 0

/-- The query `isFull()`. -/
def isFull (s : CircularBuffer α) : Bool := s.count = s.maxSize

/-- The query `capacity()`. -/
def capacity (s : CircularBuffer α) : Nat := s.maxSize

/-- Fold `add` over a list of records, oldest first. -/
def addAll (s : CircularBuffer α) (xs : List α) : CircularBuffer α :=
  xs.foldl add s

end CircularBuffer

/-! ### Abstract model of the buffer and its invariant

`Inv s l` says the concrete ring state `s` represents the logical
sequence `l` of currently held records, oldest first. -/

namespace CircularBuffer

/-- One abstract insertion: append, evicting the oldest once length `c`
is reached. -/
def absAdd (c : Nat) (l : List α) (x : α) : List α :=
  if l.length < c then l ++ [x] else l.drop 1 ++ [x]

/-- Abstract insertion folded over a list of records. -/
def absAddAll (c : Nat) (l : List α) (xs : List α) : List α :=
  xs.foldl (absAdd c) l

/-- The representation invariant tying a ring state to the logical
sequence it stores. -/
structure Inv (s : CircularBuffer α) (l : List α) : Prop where
  hpos : 1 ≤ s.maxSize
  hbuf : s.buffer.length = s.maxSize
  htail : s.tail < s.maxSize
  hhead : s.head = (s.tail + s.count) % s.maxSize
  hcount : s.count = l.length
  hle : s.count ≤ s.maxSize
  hget : ∀ i (h : i < l.length), s.buffer[(s.tail + i) % s.maxSize]? = some (some l[i])

/-- The buffer operations a caller can issue after construction
(claim C3).  `getAll()` and `getLast(n)` assign no field of the
instance, so they leave the state unchanged. -/
inductive BufOp (α : Type) where
  | add (x : α)
  | clear
  | readAll
  | readLast (n : Nat)

/-- Effect of one public buffer operation on the instance state. -/
def applyOp (s : CircularBuffer α) : BufOp α → CircularBuffer α
  | .add x => s.add x
  | .clear => s.clearBuf
  | .readAll => s
  | .readLast _ => s

/-- Effect of a whole operation sequence, first operation first. -/
def applyOps (s : CircularBuffer α) (ops : List (BufOp α)) : CircularBuffer α :=
  ops.foldl applyOp s

end CircularBuffer

/-! ## Sensitive-data sanitizer (`src/utils/sanitizer.ts`) -/

def SENSITIVE_INPUT_TYPES : List String :=
  ["password", "tel", "cc-number", "cc-csc", "cc-exp"]

def SENSITIVE_AUTOCOMPLETE_VALUES : List String :=
  ["cc-number", "cc-csc", "cc-exp", "cc-exp-month", "cc-exp-year", "cc-type",
   "new-password", "current-password"]

/-- A word character of JavaScript regexes (`\w`): letter, digit or
underscore. -/
def isWordChar (c : Char) : Bool :=
  c.isAlpha || c.isDigit || c = '_'

/-- Word-character test on an optional character; out-of-bounds
positions count as non-word. -/
def wOpt : Option Char → Bool
  | some c => isWordChar c
  | none => false

/-- The `\b` assertion of JavaScript regexes at position `k` of the
character list: exactly one of the two adjacent positions holds a word
character. -/
def boundaryAt (cs : List Char) (k : Nat) : Bool :=
  wOpt (if k = 0 then none else cs[k - 1]?) != wOpt cs[k]?

/-- Relation `leadsWith needle hay`: `needle` is an initial run of `hay`. -/
def leadsWith : List Char → List Char → Bool
  | [], _ => true
  | _ :: _, [] => false
  | a :: as, b :: bs => a == b && leadsWith as bs

/-- Relation `hasSub needle hay`: `needle` occurs contiguously inside `hay`. -/
def hasSub (needle : List Char) : List Char → Bool
  | [] => leadsWith needle []
  | c :: cs => leadsWith needle (c :: cs) || hasSub needle cs

/-- Lowercased character list of a string (`String.toLowerCase` of JS,
restricted to the ASCII range the sensitive-name patterns live in). -/
def lowerList (s : String) : List Char :=
  s.toList.map Char.toLower

/-- Case-insensitive test of a literal (given lowercase) against a
string, the `test` of an unanchored literal `/.../i` regex. -/
def testCI (needle : String) (hay : String) : Bool :=
  hasSub needle.toList (lowerList hay)

/-- The list `SENSITIVE_NAME_PATTERNS`: the thirteen case-insensitive regexes of
the source, none anchored, so each test is containment of one of the
finitely many strings the pattern denotes: `/password/i`, `/passwd/i`,
`/secret/i`, `/token/i`, `/api[_-]?key/i`, `/credit[_-]?card/i`,
`/card[_-]?number/i`, `/cvv/i`, `/cvc/i`, `/csc/i`, `/ssn/i`,
`/social[_-]?security/i`, `/pin/i`. -/
def matchesSensitiveName (nm : String) : Bool :=
  testCI "password" nm || testCI "passwd" nm || testCI "secret" nm ||
  testCI "token" nm ||
  (testCI "apikey" nm || testCI "api_key" nm || testCI "api-key" nm) ||
  (testCI "creditcard" nm || testCI "credit_card" nm || testCI "credit-card" nm) ||
  (testCI "cardnumber" nm || testCI "card_number" nm || testCI "card-number" nm) ||
  testCI "cvv" nm || testCI "cvc" nm || testCI "csc" nm || testCI "ssn" nm ||
  (testCI "socialsecurity" nm || testCI "social_security" nm ||
   testCI "social-security" nm) ||
  testCI "pin" nm

/-- The body language of
`CREDIT_CARD_PATTERN = /\b(?:\d[ -]*?){13,16}\b/`: 13 to 16 groups,
each one digit followed by spaces or dashes.  A string over digits,
spaces and dashes decomposes into such groups exactly when it starts
with a digit and carries 13 to 16 digits in total; the lazy `*?` does
not change which strings the group can cover. -/
def ccBody (cs : List Char) : Bool :=
  (match cs with
   | c :: _ => c.isDigit
   | [] => false) &&
  cs.all (fun c => c.isDigit || c = ' ' || c = '-') &&
  decide (13 ≤ cs.countP (fun c => c.isDigit)) &&
  decide (cs.countP (fun c => c.isDigit) ≤ 16)

/-- The test `CREDIT_CARD_PATTERN.test(value)`: some substring enclosed by two
word boundaries lies in the body language. -/
def ccTest (cs : List Char) : Bool :=
  (List.range (cs.length + 1)).any fun i =>
    (List.range (cs.length + 1)).any fun j =>
      decide (i ≤ j) && boundaryAt cs i && boundaryAt cs j &&
        ccBody ((cs.take j).drop i)

/-- Consume exactly `n` leading digits. -/
def takeDigits : Nat → List Char → Option (List Char)
  | 0, cs => some cs
  | n + 1, c :: cs => if c.isDigit then takeDigits n cs else none
  | _ + 1, [] => none

/-- Consume an optional `[-.]` separator.  Since a digit must follow,
a present separator can only be consumed, so the greedy choice loses no
match. -/
def dropSep : List Char → List Char
  | c :: cs => if c = '-' || c = '.' then cs else c :: cs
  | [] => []

/-- The body of `SSN_PATTERN = /\b\d{3}[-.]?\d{2}[-.]?\d{4}\b/`:
three digits, an optional separator, two digits, an optional separator,
four digits, consuming the whole substring. -/
def ssnBody (cs : List Char) : Bool :=
  match takeDigits 3 cs with
  | none => false
  | some r1 =>
    match takeDigits 2 (dropSep r1) with
    | none => false
    | some r2 =>
      match takeDigits 4 (dropSep r2) with
      | none => false
      | some r3 => r3.isEmpty

/-- The test `SSN_PATTERN.test(value)`. -/
def ssnTest (cs : List Char) : Bool :=
  (List.range (cs.length + 1)).any fun i =>
    (List.range (cs.length + 1)).any fun j =>
      decide (i ≤ j) && boundaryAt cs i && boundaryAt cs j &&
        ssnBody ((cs.take j).drop i)

/-- The function `containsSensitiveData(value)`: the `if (!value) return false` guard
(empty string is falsy), then the two value regexes. -/
def containsSensitiveData (value : String) : Bool :=
  if value = "" then false
  else if ccTest value.toList then true
  else if ssnTest value.toList then true
  else false

/-- The slice of a DOM input/textarea element read by the sanitizer.
`isInput` tells `HTMLInputElement` from `HTMLTextAreaElement` (the
`instanceof` guard on the input-type test); an absent attribute is
`none`; `name`, `id`, `className` and `value` are the empty string when
unset, as in the DOM. -/
structure InputField where
  isInput : Bool
  type : String
  autocomplete : Option String
  name : String
  id : String
  className : String
  value : String

/-- Host capabilities consumed for caller-supplied sanitize patterns:
`element.matches(selector)` and `new RegExp(pattern, 'i')` both throw on
malformed syntax, embedded as `Except.error`; a successfully built
regex is a total test function. -/
structure PatternEnv where
  matchesSelector : String → InputField → Except String Bool
  compileRegexCI : String → Except String (String → Bool)

/-- The binding `const name = element.name || element.id || ''` (JS `||` takes the
first non-empty string). -/
def effName (el : InputField) : String :=
  if el.name ≠ "" then el.name else if el.id ≠ "" then el.id else ""

/-- The `element.getAttribute('autocomplete')` truthiness guard plus the
membership test. -/
def autocompleteSensitive (el : InputField) : Bool :=
  match el.autocomplete with
  | some a => a != "" && SENSITIVE_AUTOCOMPLETE_VALUES.contains a
  | none => false

/-- The `selector.startsWith('.') || ... ('#') || ... ('[')` test
choosing the selector branch for a custom pattern (each prefix is a
single character, so the test reads the first character). -/
def looksLikeSelector (p : String) : Bool :=
  match p.toList with
  | c :: _ => c = '.' || c = '#' || c = '['
  | [] => false

/-- One iteration of the `for (const selector of customPatterns)` loop,
with its `try`/`catch`: a malformed selector or regex is caught and the
pattern contributes nothing. -/
def customPatternHit (env : PatternEnv) (el : InputField) (nm : String)
    (p : String) : Bool :=
  if looksLikeSelector p then
    match env.matchesSelector p el with
    | .ok b => b
    | .error _ => false
  else
    match env.compileRegexCI p with
    | .ok t => t nm || t el.className
    | .error _ => false

/-- Whether a caller-supplied pattern parses without throwing under the
given host (the `try` body completes). -/
def patternWellFormed (env : PatternEnv) (el : InputField) (p : String) : Bool :=
  if looksLikeSelector p then (env.matchesSelector p el).isOk
  else (env.compileRegexCI p).isOk

/-- The function `shouldSanitize(element, customPatterns)`. -/
def shouldSanitize (env : PatternEnv) (el : InputField)
    (customPatterns : List String) : Bool :=
  if el.isInput && SENSITIVE_INPUT_TYPES.contains el.type then true
  else if autocompleteSensitive el then true
  else if matchesSensitiveName (effName el) then true
  else customPatterns.any (customPatternHit env el (effName el))

/-- The slice `value.slice(0, n)` on a JS string. -/
def jsSlice (s : String) (n : Nat) : String :=
  (s.toList.take n).asString

/-- The function `sanitizeValue(value, isSensitive)`. -/
def sanitizeValue (value : String) (isSensitive : Bool) : String :=
  if isSensitive then "[SANITIZED]"
  else if containsSensitiveData value then "[SANITIZED]"
  else value

/-- The function `getSafeInputValue(element, customPatterns)`. -/
def getSafeInputValue (env : PatternEnv) (el : InputField)
    (customPatterns : List String) : String × Bool :=
  let value := el.value
  let isSensitive := shouldSanitize env el customPatterns
  if isSensitive || containsSensitiveData value then
    ("[SANITIZED]", true)
  else
    let preview := if 50 < value.length then jsSlice value 50 ++ "..." else value
    (preview, false)

/-! ## Relative-time formatting (`ErrorReplay.formatRelativeTime`,
`src/index.ts`) -/

/-- The method `formatRelativeTime(timestamp, now)`.  `Math.floor(x / 1000)` on
integral JS numbers is floor division, `Int.fdiv`; the `%` operands are
only reached positive, where the JS remainder agrees with `Int.emod`. -/
def formatRelativeTime (timestamp now : Int) : String :=
  let diff := now - timestamp
  let seconds := Int.fdiv diff 1000
  if seconds = 0 then "0s"
  else if seconds < 60 then "-" ++ toString seconds ++ "s"
  else
    let minutes := Int.fdiv seconds 60
    let remainingSeconds := Int.emod seconds 60
    if minutes < 60 then
      if remainingSeconds > 0 then
        "-" ++ toString minutes ++ "m " ++ toString remainingSeconds ++ "s"
      else
        "-" ++ toString minutes ++ "m"
    else
      let hours := Int.fdiv minutes 60
      let remainingMinutes := Int.emod minutes 60
      "-" ++ toString hours ++ "h " ++ toString remainingMinutes ++ "m"

/-! ## Error normalization and report assembly (`src/index.ts`) -/

/-- A JavaScript value arriving at `capture`, as far as
`extractErrorInfo` discriminates it: an `Error` instance (its
`message`, its constructor's `name`, its optional `stack`), a primitive
string, or anything else together with its `String(...)` coercion. -/
inductive JSValue where
  | errObj (message : String) (ctorName : String) (stack : Option String)
  | str (s : String)
  | other (coerced : String)

structure ErrorInfo where
  message : String
  type : String
  stack : Option String
  deriving DecidableEq

/-- The method `extractErrorInfo(error)`: `instanceof Error`, then
`typeof error === 'string'`, then the `String(error)` fallback. -/
def extractErrorInfo : JSValue → ErrorInfo
  | .errObj m ctor st => { message := m, type := ctor, stack := st }
  | .str s => { message := s, type := "Error", stack := none }
  | .other c => { message := c, type := "Unknown", stack := none }

/-- An action record held in the buffer.  Report assembly reads only the
common `timestamp` field; the per-variant payload is kept opaque. -/
structure UserAction where
  timestamp : Int
  payload : String
  deriving Repr, DecidableEq

structure ContextInfo where
  url : String
  userAgent : String
  viewportWidth : Int
  viewportHeight : Int
  platform : String
  timestamp : String
  deriving DecidableEq

structure ActionWithRelativeTime where
  action : UserAction
  relativeTime : String
  deriving DecidableEq

structure ErrorReport where
  reportId : String
  timestamp : String
  error : ErrorInfo
  context : ContextInfo
  actions : List ActionWithRelativeTime
  user : Option String
  deriving DecidableEq

/-- Controller state touched by `capture`/`getActions`/`actionCount`/
`isActive`: the owned buffer, the running flag, and the configured
`user` passthrough block (opaque, absent when not configured). -/
structure ErrorReplayState where
  buffer : CircularBuffer UserAction
  isRunning : Bool
  userCfg : Option String
  deriving DecidableEq

/-- Host-supplied data read inside one `capture()` call: the current
instant as epoch milliseconds (`Date.now()`) and as an ISO string, the
generated report id (time-derived prefix plus random suffix), and the
freshly read environment context. -/
structure CaptureEnv where
  nowMs : Int
  nowISO : String
  reportId : String
  context : ContextInfo

namespace ErrorReplay

/-- The method `getActionsWithRelativeTime()`: buffer snapshot, each record
annotated with its relative time against the capture instant. -/
def getActionsWithRelativeTime (s : ErrorReplayState) (nowMs : Int) :
    List ActionWithRelativeTime :=
  s.buffer.getAll.map fun a =>
    { action := a, relativeTime := formatRelativeTime a.timestamp nowMs }

/-- The method `capture(error)`.  Its body reads the buffer and the
configuration and assigns no field of `this`; the state-passing
embedding therefore returns the unchanged state alongside the report. -/
def capture (s : ErrorReplayState) (error : JSValue) (env : CaptureEnv) :
    ErrorReport × ErrorReplayState :=
  ({ reportId := env.reportId
     timestamp := env.nowISO
     error := extractErrorInfo error
     context := env.context
     actions := getActionsWithRelativeTime s env.nowMs
     user := s.userCfg },
   s)

/-- The query `getActions()`. -/
def getActions (s : ErrorReplayState) : List UserAction :=
  s.buffer.getAll

/-- The query `actionCount()`. -/
def actionCount (s : ErrorReplayState) : Nat :=
  s.buffer.size

/-- The query `isActive()`. -/
def isActive (s : ErrorReplayState) : Bool :=
  s.isRunning

end ErrorReplay

/-! ## Console capture (`src/detectors/console-detector.ts`) -/

inductive ConsoleLevel where
  | error
  | warn
  deriving Repr, DecidableEq

/-- A JavaScript argument to `console.error`/`console.warn`, as far as
`captureConsole` discriminates it: a primitive string, an `Error`
instance, another object (whose `JSON.stringify` either yields a string
or throws, and whose `String(...)` coercion is kept for the throwing
case), or any other value with its `String(...)` coercion and its
`typeof` tag. -/
inductive ConsoleArg where
  | str (s : String)
  | errObj (message : String)
  | obj (json : Option String) (coerced : String)
  | prim (coerced : String) (typeofTag : String)

/-- The `args.map(...)` body building the joined message:
`instanceof Error` → its message; `typeof 'object'` → `JSON.stringify`
with the `catch` falling back to `String(arg)`; otherwise
`String(arg)`. -/
def consoleArgToMessage : ConsoleArg → String
  | .str s => s
  | .errObj m => m
  | .obj (some j) _ => j
  | .obj none c => c
  | .prim c _ => c

/-- The `args.slice(0, 5).map(...)` body building the `args` field:
strings are cut to 100 characters, an `Error` contributes its whole
message, anything else its `typeof` tag. -/
def consoleArgEntry : ConsoleArg → String
  | .str s => jsSlice s 100
  | .errObj m => m
  | .obj _ _ => "object"
  | .prim _ ty => ty

structure ConsoleAction where
  level : ConsoleLevel
  message : String
  args : List String
  timestamp : Int
  page : String
  deriving DecidableEq

/-- The function `captureConsole(level, args)`, with `Date.now()` and
`location.pathname` passed in. -/
def captureConsole (level : ConsoleLevel) (args : List ConsoleArg)
    (ts : Int) (page : String) : ConsoleAction :=
  { level := level
    message := jsSlice (String.intercalate " " (args.map consoleArgToMessage)) 500
    args := (args.take 5).map consoleArgEntry
    timestamp := ts
    page := page }

/-! ## Concrete data for witnesses -/

/-- A concrete host for witnesses: `element.matches` always throws
(there is no DOM here), and `new RegExp(p, 'i')` fails exactly on the
unbalanced pattern `"("` — as it does in JavaScript — and otherwise
tests case-insensitive literal containment. -/
def demoPatternEnv : PatternEnv :=
  { matchesSelector := fun _ _ => .error "SyntaxError"
    compileRegexCI := fun p =>
      if p = "(" then .error "SyntaxError: Invalid regular expression"
      else .ok fun s => hasSub (lowerList p) (lowerList s) }

/-- A text field named `accountBalance` holding `1000`. -/
def balanceField : InputField :=
  { isInput := true
    type := "text"
    autocomplete := none
    name := "accountBalance"
    id := ""
    className := ""
    value := "1000" }

/-! ## Buffer correctness lemmas -/

namespace CircularBuffer

theorem inv_empty {α : Type} {c : Nat} (hc : 1 ≤ c) : Inv (emptyBuf α c) [] := by
  refine ⟨hc, by simp [emptyBuf], by simpa [emptyBuf] using hc, ?_, rfl, by simp [emptyBuf], ?_⟩
  · simp [emptyBuf]
  · intro i h
    simp at h

/-- Two offsets differing by a nonzero amount smaller than the modulus
land on different ring slots. -/
theorem add_mod_ne {t i j m : Nat} (hij : i < j) (hjm : j - i < m) :
    (t + i) % m ≠ (t + j) % m := by
  intro h
  have hmod : (t + i) ≡ (t + j) [MOD m] := h
  rw [Nat.modEq_iff_dvd' (by omega)] at hmod
  have heq : (t + j) - (t + i) = j - i := by omega
  rw [heq] at hmod
  have := Nat.le_of_dvd (by omega) hmod
  omega

theorem inv_add {s : CircularBuffer α} {l : List α} (inv : Inv s l) (x : α) :
    Inv (s.add x) (absAdd s.maxSize l x) := by
  obtain ⟨hpos, hbuf, htail, hhead, hcount, hle, hget⟩ := inv
  have hheadlt : s.head < s.maxSize := by
    rw [hhead]
    exact Nat.mod_lt _ (by omega)
  by_cases h : s.count < s.maxSize
  · -- not yet full: the new record is appended, nothing evicted
    have habs : absAdd s.maxSize l x = l ++ [x] := by
      rw [absAdd, if_pos (hcount ▸ h)]
    have hadd : s.add x =
        { buffer := s.buffer.set s.head (some x)
          head := (s.head + 1) % s.maxSize
          tail := s.tail
          count := s.count + 1
          maxSize := s.maxSize } := by
      simp [add, h]
    rw [habs, hadd]
    refine ⟨hpos, by simp [hbuf], htail, ?_, ?_, by show s.count + 1 ≤ s.maxSize; omega, ?_⟩
    · show (s.head + 1) % s.maxSize = (s.tail + (s.count + 1)) % s.maxSize
      rw [hhead, Nat.mod_add_mod, Nat.add_assoc]
    · show s.count + 1 = (l ++ [x]).length
      simp [hcount]
    · intro i hi
      simp only [List.length_append, List.length_cons, List.length_nil] at hi
      rcases Nat.lt_or_ge i l.length with hil | hil
      · have hne : (s.tail + i) % s.maxSize ≠ s.head := by
          rw [hhead]
          exact add_mod_ne (by omega) (by omega)
        rw [List.getElem?_set_ne hne.symm, hget i hil, List.getElem_append_left hil]
      · have hieq : i = l.length := by omega
        subst hieq
        have hidx : (s.tail + l.length) % s.maxSize = s.head := by rw [hhead, hcount]
        rw [hidx, List.getElem?_set_self (by rw [hbuf]; exact hheadlt),
          List.getElem_concat_length _ _ _ rfl]
  · -- full: the oldest record is evicted
    have hfull : s.count = s.maxSize := by omega
    have hlen : l.length = s.maxSize := by omega
    have habs : absAdd s.maxSize l x = l.drop 1 ++ [x] := by
      rw [absAdd, if_neg (by omega)]
    have hadd : s.add x =
        { buffer := s.buffer.set s.head (some x)
          head := (s.head + 1) % s.maxSize
          tail := (s.tail + 1) % s.maxSize
          count := s.count
          maxSize := s.maxSize } := by
      simp [add, h]
    have hheadtail : s.head = s.tail := by
      rw [hhead, hfull, Nat.add_mod_right, Nat.mod_eq_of_lt htail]
    have hlen' : (l.drop 1 ++ [x]).length = s.maxSize := by
      simp [List.length_drop]
      omega
    rw [habs, hadd]
    refine ⟨hpos, by simp [hbuf], Nat.mod_lt _ (by omega), ?_, ?_,
      by show s.count ≤ s.maxSize; omega, ?_⟩
    · show (s.head + 1) % s.maxSize = ((s.tail + 1) % s.maxSize + s.count) % s.maxSize
      rw [hheadtail, hfull, Nat.mod_add_mod, Nat.add_mod_right]
    · show s.count = (l.drop 1 ++ [x]).length
      rw [hlen', hfull]
    · intro i hi
      rw [hlen'] at hi
      rcases Nat.lt_or_ge i (s.maxSize - 1) with hil | hil
      · have hidx : ((s.tail + 1) % s.maxSize + i) % s.maxSize =
            (s.tail + (1 + i)) % s.maxSize := by
          rw [Nat.mod_add_mod, Nat.add_assoc]
        have hne : (s.tail + (1 + i)) % s.maxSize ≠ s.head := by
          rw [hheadtail]
          have h0 : s.tail % s.maxSize = s.tail := Nat.mod_eq_of_lt htail
          have hd := add_mod_ne (t := s.tail) (i := 0) (j := 1 + i) (m := s.maxSize)
            (by omega) (by omega)
          simpa [h0] using hd.symm
        rw [hidx, List.getElem?_set_ne hne.symm]
        have hrec := hget (1 + i) (by omega)
        rw [hrec]
        have hi' : i < (l.drop 1).length := by
          simp [List.length_drop]
          omega
        rw [List.getElem_append_left hi', List.getElem_drop]
      · have hieq : i = s.maxSize - 1 := by omega
        subst hieq
        have hidx : ((s.tail + 1) % s.maxSize + (s.maxSize - 1)) % s.maxSize = s.tail := by
          rw [Nat.mod_add_mod]
          have heq : s.tail + 1 + (s.maxSize - 1) = s.tail + s.maxSize := by omega
          rw [heq, Nat.add_mod_right, Nat.mod_eq_of_lt htail]
        rw [hidx, ← hheadtail, List.getElem?_set_self (by rw [hbuf]; exact hheadlt)]
        rw [List.getElem_concat_length _ _ _ (by simp [List.length_drop]; omega)]

theorem getAllLoop_spec {α : Type} {buf : List (Option α)} {m : Nat} :
    ∀ (l : List α) (idx : Nat), idx < m →
      (∀ i (h : i < l.length), buf[(idx + i) % m]? = some (some l[i])) →
      getAllLoop buf m idx l.length = l := by
  intro l
  induction l with
  | nil =>
    intro idx _ _
    rfl
  | cons x xs ih =>
    intro idx hidx hget
    have h0 : buf[idx]? = some (some x) := by
      have h00 := hget 0 (by simp)
      simpa [Nat.mod_eq_of_lt hidx] using h00
    have hgetD : buf.getD idx none = some x := by
      rw [List.getD_eq_getElem?_getD, h0]
      rfl
    show getAllLoop buf m idx (xs.length + 1) = x :: xs
    rw [getAllLoop, hgetD]
    have hstep : getAllLoop buf m ((idx + 1) % m) xs.length = xs := by
      refine ih ((idx + 1) % m) (Nat.mod_lt _ (by omega)) ?_
      intro i hi
      have hmod : ((idx + 1) % m + i) % m = (idx + (i + 1)) % m := by
        rw [Nat.mod_add_mod]
        ring_nf
      rw [hmod]
      have := hget (i + 1) (by simpa using Nat.succ_lt_succ hi)
      simpa using this
    rw [hstep]

theorem getAll_eq {s : CircularBuffer α} {l : List α} (inv : Inv s l) : s.getAll = l := by
  rw [getAll]
  by_cases h : s.count = 0
  · rw [if_pos h]
    have : l.length = 0 := by rw [← inv.hcount, h]
    exact (List.eq_nil_of_length_eq_zero this).symm
  · rw [if_neg h, inv.hcount]
    exact getAllLoop_spec l s.tail inv.htail inv.hget

theorem inv_addAll {s : CircularBuffer α} {l : List α} (inv : Inv s l) (xs : List α) :
    Inv (s.addAll xs) (absAddAll s.maxSize l xs) := by
  induction xs generalizing s l with
  | nil => exact inv
  | cons x rest ih =>
    show Inv ((s.add x).addAll rest) (absAddAll s.maxSize (absAdd s.maxSize l x) rest)
    have hms : s.maxSize = (s.add x).maxSize := rfl
    rw [hms]
    exact ih (inv_add inv x)

theorem absAddAll_eq {α : Type} (c : Nat) (hc : 1 ≤ c) :
    ∀ (xs l : List α), l.length ≤ c →
      absAddAll c l xs = (l ++ xs).drop ((l ++ xs).length - c) := by
  intro xs
  induction xs with
  | nil =>
    intro l hl
    have h0 : l.length - c = 0 := by omega
    simp [absAddAll, h0]
  | cons x rest ih =>
    intro l hl
    show absAddAll c (absAdd c l x) rest = _
    by_cases h : l.length < c
    · rw [absAdd, if_pos h, ih (l ++ [x]) (by simp; omega)]
      simp [List.append_assoc]
    · have hlc : l.length = c := by omega
      rw [absAdd, if_neg h, ih (l.drop 1 ++ [x]) (by simp; omega)]
      have hsplit : l ++ x :: rest = l ++ ([x] ++ rest) := by simp
      have hdrop1 : (l ++ ([x] ++ rest)).drop 1 = l.drop 1 ++ ([x] ++ rest) :=
        List.drop_append_of_le_length (by omega)
      have hlenL : ((l.drop 1 ++ [x]) ++ rest).length - c = rest.length := by
        simp [List.length_drop]
        omega
      have hlenR : (l ++ x :: rest).length - c = 1 + rest.length := by
        simp
        omega
      rw [hlenL, hlenR, hsplit, ← List.drop_drop, hdrop1, List.append_assoc]

end CircularBuffer

namespace CircularBuffer

theorem applyOps_maxSize (s : CircularBuffer α) (ops : List (BufOp α)) :
    (applyOps s ops).maxSize = s.maxSize := by
  induction ops generalizing s with
  | nil => rfl
  | cons op rest ih =>
    show (applyOps (applyOp s op) rest).maxSize = s.maxSize
    rw [ih]
    cases op <;> rfl

theorem applyOps_count_le (s : CircularBuffer α) (ops : List (BufOp α))
    (h : s.count ≤ s.maxSize) :
    (applyOps s ops).count ≤ (applyOps s ops).maxSize := by
  induction ops generalizing s with
  | nil => exact h
  | cons op rest ih =>
    show (applyOps (applyOp s op) rest).count ≤ _
    apply ih
    cases op with
    | add x =>
      show (if s.count < s.maxSize then s.count + 1 else s.count) ≤ s.maxSize
      split <;> omega
    | clear => exact Nat.zero_le _
    | readAll => exact h
    | readLast n => exact h

end CircularBuffer

/-! ## Sanitizer lemmas -/

theorem customPatternHit_eq_false_of_malformed (env : PatternEnv) (el : InputField)
    (nm p : String) (h : patternWellFormed env el p = false) :
    customPatternHit env el nm p = false := by
  rw [patternWellFormed] at h
  rw [customPatternHit]
  split_ifs at h ⊢ with hsel
  · cases henv : env.matchesSelector p el with
    | ok b =>
      rw [henv] at h
      simp [Except.isOk, Except.toBool] at h
    | error e => rfl
  · cases henv : env.compileRegexCI p with
    | ok t =>
      rw [henv] at h
      simp [Except.isOk, Except.toBool] at h
    | error e => rfl

theorem any_filter_wellFormed (env : PatternEnv) (el : InputField) (nm : String)
    (pats : List String) :
    pats.any (customPatternHit env el nm)
      = (pats.filter (patternWellFormed env el)).any (customPatternHit env el nm) := by
  induction pats with
  | nil => rfl
  | cons p rest ih =>
    by_cases h : patternWellFormed env el p
    · simp [List.filter_cons, h, List.any_cons, ih]
    · have hb : patternWellFormed env el p = false := by simpa using h
      have hp := customPatternHit_eq_false_of_malformed env el nm p hb
      simp [List.filter_cons, hb, List.any_cons, hp, ih]

theorem shouldSanitize_eq_or (env : PatternEnv) (el : InputField)
    (pats : List String) :
    shouldSanitize env el pats
      = ((el.isInput && SENSITIVE_INPUT_TYPES.contains el.type)
          || autocompleteSensitive el
          || matchesSensitiveName (effName el)
          || pats.any (customPatternHit env el (effName el))) := by
  rw [shouldSanitize]
  cases h1 : (el.isInput && SENSITIVE_INPUT_TYPES.contains el.type) with
  | true => simp [h1]
  | false =>
    cases h2 : autocompleteSensitive el with
    | true => simp [h1, h2]
    | false =>
      cases h3 : matchesSensitiveName (effName el) with
      | true => simp [h1, h2, h3]
      | false => simp [h1, h2, h3]

/-! ## Claim theorems -/

/-- C2: for a buffer of capacity `c ≥ 1`, after adding a sequence of
`n ≥ c` records in order, `getAll()` returns exactly the last `c`
records added, in their original insertion order (oldest first). -/
theorem circularBuffer_bounded_fifo {α : Type} (c : Nat) (hc : 1 ≤ c)
    (xs : List α) (hn : c ≤ xs.length) :
    ((CircularBuffer.emptyBuf α c).addAll xs).getAll = xs.drop (xs.length - c) ∧
    ((CircularBuffer.emptyBuf α c).addAll xs).getAll.length = c := by
  have inv := CircularBuffer.inv_addAll (CircularBuffer.inv_empty hc) xs
  have hg := CircularBuffer.getAll_eq inv
  have habs := CircularBuffer.absAddAll_eq c hc xs [] (by simp)
  have hmain : ((CircularBuffer.emptyBuf α c).addAll xs).getAll
      = xs.drop (xs.length - c) := by
    rw [hg]
    show CircularBuffer.absAddAll c [] xs = xs.drop (xs.length - c)
    rw [habs]
    simp
  refine ⟨hmain, ?_⟩
  rw [hmain, List.length_drop]
  omega

/-- Witness for C2: capacity 3, records A, B, C, D, result [B, C, D]. -/
theorem circularBuffer_bounded_fifo_witness :
    1 ≤ 3 ∧ 3 ≤ (["A", "B", "C", "D"] : List String).length ∧
    ((CircularBuffer.emptyBuf String 3).addAll ["A", "B", "C", "D"]).getAll
      = ["B", "C", "D"] := by
  refine ⟨by decide, by decide, ?_⟩
  have h := (circularBuffer_bounded_fifo 3 (by decide) ["A", "B", "C", "D"] (by decide)).1
  simpa using h

/-- C3: constructing with capacity < 1 fails with an error; for every
capacity `c ≥ 1` construction succeeds, and `size() ≤ c` holds in every
state reachable by any sequence of add/clear/getAll/getLast. -/
theorem circularBuffer_capacity_invariant (α : Type) (c : Int) :
    (c < 1 → CircularBuffer.mk? α c = .error "Buffer size must be at least 1") ∧
    (1 ≤ c →
      CircularBuffer.mk? α c = .ok (CircularBuffer.emptyBuf α c.toNat) ∧
      ∀ ops : List (CircularBuffer.BufOp α),
        ((CircularBuffer.applyOps (CircularBuffer.emptyBuf α c.toNat) ops).size : Int)
          ≤ c) := by
  constructor
  · intro h
    rw [CircularBuffer.mk?, if_pos h]
  · intro h
    refine ⟨by rw [CircularBuffer.mk?, if_neg (by omega)], ?_⟩
    intro ops
    have h1 := CircularBuffer.applyOps_count_le (CircularBuffer.emptyBuf α c.toNat) ops
      (by simp [CircularBuffer.emptyBuf])
    have h2 := CircularBuffer.applyOps_maxSize (CircularBuffer.emptyBuf α c.toNat) ops
    rw [h2] at h1
    have h3 : (CircularBuffer.emptyBuf α c.toNat).maxSize = c.toNat := rfl
    rw [h3] at h1
    show ((CircularBuffer.applyOps (CircularBuffer.emptyBuf α c.toNat) ops).count : Int) ≤ c
    omega

/-- Witness for C3: capacity 0 is rejected; capacity 3 is accepted and a
sample operation sequence keeps `size()` within 3. -/
theorem circularBuffer_capacity_invariant_witness :
    CircularBuffer.mk? Nat 0 = .error "Buffer size must be at least 1" ∧
    CircularBuffer.mk? Nat 3 = .ok (CircularBuffer.emptyBuf Nat 3) ∧
    ((CircularBuffer.applyOps (CircularBuffer.emptyBuf Nat 3)
        [.add 1, .add 2, .add 3, .add 4, .readAll, .clear, .add 5]).size : Int) ≤ 3 := by
  have h0 := (circularBuffer_capacity_invariant Nat 0).1 (by decide)
  have h3 := (circularBuffer_capacity_invariant Nat 3).2 (by decide)
  exact ⟨h0, h3.1, h3.2 _⟩

/-- C5 (behaviour at the failing input): after adding the single record
"A", `getLast(0)` returns the whole buffer content `["A"]`, not the
empty sequence — `slice(-0)` is `slice(0)`. -/
theorem getLast_zero_returns_all :
    ((CircularBuffer.emptyBuf String 1).add "A").getLast 0 = ["A"] ∧
    ((CircularBuffer.emptyBuf String 1).add "A").getLast 0 ≠ [] := by
  constructor <;> decide

/-- C4: for a non-negative difference, `formatRelativeTime` follows the
exact tiering over the truncated whole-second value `s`: zero whole
seconds give "0s"; under 60 seconds give "-{s}s"; under one hour give
"-{m}m {s}s" with the seconds term omitted when the remainder is zero;
otherwise "-{h}h {m}m", all values truncated toward zero. -/
theorem formatRelativeTime_tiers (timestamp now s : Int)
    (_hd : 0 ≤ now - timestamp) (hs : s = Int.fdiv (now - timestamp) 1000) :
    (s = 0 → formatRelativeTime timestamp now = "0s") ∧
    (1 ≤ s → s < 60 →
      formatRelativeTime timestamp now = "-" ++ toString s ++ "s") ∧
    (60 ≤ s → s < 3600 →
      formatRelativeTime timestamp now =
        if Int.emod s 60 = 0 then "-" ++ toString (Int.fdiv s 60) ++ "m"
        else "-" ++ toString (Int.fdiv s 60) ++ "m " ++ toString (Int.emod s 60) ++ "s") ∧
    (3600 ≤ s →
      formatRelativeTime timestamp now =
        "-" ++ toString (Int.fdiv (Int.fdiv s 60) 60) ++ "h " ++
          toString (Int.emod (Int.fdiv s 60) 60) ++ "m") := by
  subst hs
  simp only [formatRelativeTime]
  have h1000 : Int.fdiv (now - timestamp) 1000 = (now - timestamp) / 1000 :=
    Int.fdiv_eq_ediv _ (by norm_num)
  have h60 : ∀ a : Int, Int.fdiv a 60 = a / 60 := fun a => Int.fdiv_eq_ediv a (by norm_num)
  have hmod : ∀ a : Int, Int.emod a 60 = a % 60 := fun _ => rfl
  rw [h1000]
  simp only [h60, hmod]
  refine ⟨?_, ?_, ?_, ?_⟩
  · intro h0
    rw [if_pos h0]
  · intro ha hb
    rw [if_neg (by omega), if_pos hb]
  · intro ha hb
    rw [if_neg (by omega), if_neg (by omega), if_pos (by omega)]
    by_cases hz : (now - timestamp) / 1000 % 60 = 0
    · rw [if_pos hz, if_neg (by omega)]
    · rw [if_neg hz, if_pos (by omega)]
  · intro ha
    rw [if_neg (by omega), if_neg (by omega), if_neg (by omega)]

/-- Witness for C4 at differences 0, 45000, 125000 and 3600000 ms. -/
theorem formatRelativeTime_tiers_witness :
    formatRelativeTime 0 0 = "0s" ∧
    formatRelativeTime 0 45000 = "-45s" ∧
    formatRelativeTime 0 125000 = "-2m 5s" ∧
    formatRelativeTime 0 3600000 = "-1h 0m" := by
  have h1 := (formatRelativeTime_tiers 0 0 0 (by decide) (by decide)).1 (by decide)
  have h2 := (formatRelativeTime_tiers 0 45000 45 (by decide) (by decide)).2.1
    (by decide) (by decide)
  have h3 := (formatRelativeTime_tiers 0 125000 125 (by decide) (by decide)).2.2.1
    (by decide) (by decide)
  have h4 := (formatRelativeTime_tiers 0 3600000 3600 (by decide) (by decide)).2.2.2
    (by decide)
  exact ⟨h1, h2.trans (by decide), h3.trans (by decide), h4.trans (by decide)⟩

/-- C10: when the capture instant precedes the action timestamp, the
truncated whole-second value is at most −1 and the output is the
double-minus string "-" followed by the decimal rendering of that
negative integer and "s" — none of the documented forms. -/
theorem formatRelativeTime_negative_diff (timestamp now : Int) (h : now < timestamp) :
    Int.fdiv (now - timestamp) 1000 ≤ -1 ∧
    formatRelativeTime timestamp now
      = "-" ++ toString (Int.fdiv (now - timestamp) 1000) ++ "s" := by
  have hfe : Int.fdiv (now - timestamp) 1000 = (now - timestamp) / 1000 :=
    Int.fdiv_eq_ediv _ (by norm_num)
  have hneg : Int.fdiv (now - timestamp) 1000 ≤ -1 := by
    rw [hfe]
    omega
  refine ⟨hneg, ?_⟩
  simp only [formatRelativeTime]
  rw [if_neg (by omega), if_pos (by omega)]

/-- Witness for C10: an action timestamped 1000 ms after the capture
instant renders as "--1s". -/
theorem formatRelativeTime_negative_diff_witness :
    Int.fdiv ((0 : Int) - 1000) 1000 ≤ -1 ∧
    formatRelativeTime 1000 0 = "--1s" := by
  have h := formatRelativeTime_negative_diff 1000 0 (by decide)
  exact ⟨h.1, h.2.trans (by decide)⟩

/-- C6: `capture`'s error normalization is total and maps an `Error`
instance to its message, its concrete constructor's name and its stack;
a plain string `s` to message `s`, generic type "Error" and no stack;
and any other value to its string coercion, type "Unknown" and no
stack. -/
theorem extractErrorInfo_cases :
    (∀ m ctor st, extractErrorInfo (.errObj m ctor st)
        = { message := m, type := ctor, stack := st }) ∧
    (∀ s, extractErrorInfo (.str s)
        = { message := s, type := "Error", stack := none }) ∧
    (∀ c, extractErrorInfo (.other c)
        = { message := c, type := "Unknown", stack := none }) :=
  ⟨fun _ _ _ => rfl, fun _ => rfl, fun _ => rfl⟩

/-- C7: `capture` leaves the controller state unchanged — buffer
contents, action count and running flag are as before — and two
consecutive captures with no intervening add produce reports whose
action lists agree once the `relativeTime` annotation is stripped, both
being the buffer snapshot. -/
theorem capture_pure (s : ErrorReplayState) (e1 e2 : JSValue)
    (env1 env2 : CaptureEnv) :
    (ErrorReplay.capture s e1 env1).2 = s ∧
    ErrorReplay.getActions (ErrorReplay.capture s e1 env1).2
      = ErrorReplay.getActions s ∧
    ErrorReplay.actionCount (ErrorReplay.capture s e1 env1).2
      = ErrorReplay.actionCount s ∧
    ErrorReplay.isActive (ErrorReplay.capture s e1 env1).2
      = ErrorReplay.isActive s ∧
    (ErrorReplay.capture (ErrorReplay.capture s e1 env1).2 e2 env2).1.actions.map
        ActionWithRelativeTime.action
      = (ErrorReplay.capture s e1 env1).1.actions.map ActionWithRelativeTime.action ∧
    (ErrorReplay.capture s e1 env1).1.actions.map ActionWithRelativeTime.action
      = ErrorReplay.getActions s := by
  refine ⟨rfl, rfl, rfl, rfl, ?_, ?_⟩
  · show (ErrorReplay.getActionsWithRelativeTime s env2.nowMs).map
          ActionWithRelativeTime.action
        = (ErrorReplay.getActionsWithRelativeTime s env1.nowMs).map
          ActionWithRelativeTime.action
    rw [ErrorReplay.getActionsWithRelativeTime, ErrorReplay.getActionsWithRelativeTime,
      List.map_map, List.map_map]
    rfl
  · show (ErrorReplay.getActionsWithRelativeTime s env1.nowMs).map
          ActionWithRelativeTime.action
        = ErrorReplay.getActions s
    rw [ErrorReplay.getActionsWithRelativeTime, List.map_map]
    exact List.map_id _

/-- C1: `getSafeInputValue` returns the "[SANITIZED]" marker with
`isSanitized = true` exactly when the field is classified sensitive
(sensitive input type on an input element, sensitive autocomplete hint,
name/id matching a built-in sensitive-name regex, or a caller-supplied
pattern hit) or the value matches the credit-card or SSN regex; any
other value is returned as itself when at most 50 characters, else as
its first 50 characters followed by "...", with `isSanitized = false`. -/
theorem getSafeInputValue_policy (env : PatternEnv) (el : InputField)
    (pats : List String) :
    getSafeInputValue env el pats =
      if (el.isInput && SENSITIVE_INPUT_TYPES.contains el.type)
          || autocompleteSensitive el
          || matchesSensitiveName (effName el)
          || pats.any (customPatternHit env el (effName el))
          || containsSensitiveData el.value then
        ("[SANITIZED]", true)
      else
        (if 50 < el.value.length then jsSlice el.value 50 ++ "..." else el.value,
         false) := by
  simp only [getSafeInputValue, shouldSanitize_eq_or, Bool.or_assoc]

/-- C8: a malformed caller-supplied pattern is skipped per-pattern and
never aborts classification: `shouldSanitize` is total and its result
equals classification over the well-formed patterns alone; with pattern
"balance" present, the field named "accountBalance" is classified
sensitive even when a malformed pattern "(" accompanies it on either
side. -/
theorem shouldSanitize_skips_malformed (env : PatternEnv) (el : InputField)
    (pats : List String) :
    shouldSanitize env el pats
        = shouldSanitize env el (pats.filter (patternWellFormed env el)) ∧
    shouldSanitize demoPatternEnv balanceField ["balance", "("] = true ∧
    shouldSanitize demoPatternEnv balanceField ["(", "balance"] = true := by
  refine ⟨?_, by decide, by decide⟩
  simp only [shouldSanitize]
  rw [any_filter_wellFormed]

/-- C9 counterexample: a single `console.error` argument that is an
`Error` with a 101-character message produces an `args` entry longer
than 100 characters — its stringification is not capped at 100. -/
theorem captureConsole_args_over_100 :
    ((captureConsole .error [.errObj (String.mk (List.replicate 101 'a'))] 0 "/").args.all
        fun a => decide (a.length ≤ 100)) = false := by
  decide

/-- C9 amended: the console action's message is the space-joined
stringification of the arguments cut to at most 500 characters, and
`args` keeps at most the first five arguments, strings cut to 100
characters, an `Error` argument contributing its whole (uncapped)
message, and any other argument its `typeof` tag. -/
theorem captureConsole_spec (level : ConsoleLevel) (args : List ConsoleArg)
    (ts : Int) (page : String) :
    (captureConsole level args ts page).message
        = jsSlice (String.intercalate " " (args.map consoleArgToMessage)) 500 ∧
    (captureConsole level args ts page).message.length ≤ 500 ∧
    (captureConsole level args ts page).args = (args.take 5).map consoleArgEntry ∧
    (captureConsole level args ts page).args.length ≤ 5 ∧
    (∀ str, consoleArgEntry (.str str) = jsSlice str 100 ∧
      (consoleArgEntry (.str str)).length ≤ 100) ∧
    (∀ m, consoleArgEntry (.errObj m) = m) := by
  refine ⟨rfl, ?_, rfl, ?_, ?_, fun _ => rfl⟩
  · show (jsSlice _ 500).length ≤ 500
    rw [jsSlice, List.length_asString]
    exact List.length_take_le _ _
  · show ((args.take 5).map consoleArgEntry).length ≤ 5
    rw [List.length_map]
    exact List.length_take_le _ _
  · intro str
    refine ⟨rfl, ?_⟩
    show (jsSlice str 100).length ≤ 100
    rw [jsSlice, List.length_asString]
    exact List.length_take_le _ _
